import Mathlib

/-
Verification of the directive compilation and lifecycle scheduling engine of
src/src/core/directives/directive_provider.ts (ng-metadata).

The TypeScript code is shallowly embedded:
  * plain JS objects used as string maps (insertion ordered, overwrite in
    place) are association lists `List (String × α)` with `mapSet`/`mapGet`;
  * fallible code (thrown errors) returns `Except String _`;
  * closures registered for later invocation (query resolvers, lifecycle
    callbacks, watcher disposal functions) are represented by descriptors /
    identifiers, and executing them produces an explicit event trace;
  * `scope.$evalAsync` scheduling is an explicit queue of deferred tasks.
-/

set_option autoImplicit false

namespace NgMetadata

/-! ## JS object / string-map helpers -/

/-- JS object property assignment `obj[k] = v`: overwrite in place when the key
exists (keeping its original position), otherwise append. -/
def mapSet {α : Type} : List (String × α) → String → α → List (String × α)
  | [], k, v => [(k, v)]
  | p :: rest, k, v => if p.1 = k then (k, v) :: rest else p :: mapSet rest k v

/-- JS object property read `obj[k]` (`undefined` = `none`). -/
def mapGet {α : Type} (m : List (String × α)) (k : String) : Option α :=
  (m.find? (fun p => p.1 = k)).map (fun p => p.2)

/-- The keys of a JS object, in insertion order (`Object.keys`). -/
def mapKeys {α : Type} (m : List (String × α)) : List String :=
  m.map (fun p => p.1)

/-- `Object.assign(m1, m2)`: copy every entry of `m2` onto `m1` in order. -/
def assignMap {α : Type} : List (String × α) → List (String × α) → List (String × α)
  | m1, [] => m1
  | m1, p :: rest => assignMap (mapSet m1 p.1 p.2) rest

/-- Truthiness of an optional JS string field: `undefined` and `""` are falsy. -/
def strTruthy : Option String → Bool
  | none => false
  | some s => !s.isEmpty

/-- `s.split(sep)` for a one-character separator, on character lists. -/
def splitListOnChar (sep : Char) : List Char → List (List Char)
  | [] => [[]]
  | c :: rest =>
    let r := splitListOnChar sep rest
    if c = sep then [] :: r
    else
      match r with
      | [] => [[c]]
      | h :: t => (c :: h) :: t

/-- JS `String.prototype.split` with a one-character separator. -/
def splitOnChar (sep : Char) (s : String) : List String :=
  (splitListOnChar sep s.toList).map String.mk

/-- JS `String.prototype.trim`. -/
def strTrim (s : String) : String :=
  String.mk (((s.toList.dropWhile Char.isWhitespace).reverse.dropWhile
    Char.isWhitespace).reverse)

/-- JS `String.prototype.endsWith` / the `x$` anchor of an anchored regex. -/
def strEndsWith (s suffix2 : String) : Bool :=
  suffix2.toList.isSuffixOf s.toList

/-- JS `String.prototype.startsWith` / the `^x` anchor of an anchored regex. -/
def strStartsWith (s p : String) : Bool :=
  p.toList.isPrefixOf s.toList

/-- Association lists with pairwise-distinct keys (every map built by
`mapSet` from the empty object has this, as JS object keys are unique). -/
def NodupKeys {α : Type} (m : List (String × α)) : Prop := (mapKeys m).Nodup

/-! ## Host spec processing (`DirectiveProvider._processHost`) -/

/-- `HostBindingsProcessed` of the source: the three reactive-binding maps. -/
structure HostBindingsProcessed where
  classes : List (String × String)
  attributes : List (String × String)
  properties : List (String × String)
deriving DecidableEq, Repr

/-- `HostProcessed` of the source. -/
structure HostProcessed where
  hostStatic : List (String × String)
  hostBindings : HostBindingsProcessed
  hostListeners : List (String × List String)
deriving DecidableEq, Repr

/-- `HOST_BINDING_KEY_REGEX = /^\[.*\]$/` (the `.` of the regex is "any
character"; keys containing newlines are outside the model). -/
def isHostBindingKey (k : String) : Bool :=
  strStartsWith k "[" && strEndsWith k "]" && 2 ≤ k.length

/-- `HOST_LISTENER_KEY_REGEX = /^\(.*\)$/`. -/
def isHostListenerKey (k : String) : Bool :=
  strStartsWith k "(" && strEndsWith k ")" && 2 ≤ k.length

/-- `isStaticHost`: neither a binding key nor a listener key. -/
def isStaticHostKey (k : String) : Bool :=
  !(isHostBindingKey k || isHostListenerKey k)

/-- `hostKey.replace( /\[|\]|\(|\)/g, '' )`: drop every square or round
bracket anywhere in the key. -/
def stripBindingOrListenerBrackets (hostKey : String) : String :=
  String.mk (hostKey.toList.filter
    (fun c => !(c = '[' || c = ']' || c = '(' || c = ')')))

/-- `HAS_CLASS_REGEX = /^class./` — note the unescaped `.`: the key must start
with `class` followed by ANY single character, not necessarily a dot. -/
def hasClassRegexTest (k : String) : Bool :=
  strStartsWith k "class" && 6 ≤ k.length

/-- `k.replace( HAS_CLASS_REGEX, '' )`: when the regex matches it removes the
first six characters (`class` plus the any-character). -/
def hasClassRegexStrip (k : String) : String := k.drop 6

/-- `HAS_ATTR_REGEX = /^attr./` — same unescaped-dot remark. -/
def hasAttrRegexTest (k : String) : Bool :=
  strStartsWith k "attr" && 5 ≤ k.length

def hasAttrRegexStrip (k : String) : String := k.drop 5

/-- `\w` of JS regexes. -/
def isWordChar (c : Char) : Bool :=
  ('a' ≤ c && c ≤ 'z') || ('A' ≤ c && c ≤ 'Z') || ('0' ≤ c && c ≤ '9') || c = '_'

/-- character class `[$\w.,]` of the listener-callback regex. -/
def isCbArgChar (c : Char) : Bool :=
  c = '$' || isWordChar c || c = '.' || c = ','

/-- `/^(\w+)\(([$\w.,]*)\)$/.exec( cbString )`: `none` models a failed match
(on which the source's array destructuring throws). Greedy matching of `\w+`
and `[$\w.,]*` is maximal munch, since `(` is not a word character and `)` is
not an argument character. -/
def execHostListenerRegex (cbString : String) : Option (String × String) :=
  let cs := cbString.toList
  let nameChars := cs.takeWhile isWordChar
  match cs.dropWhile isWordChar with
  | '(' :: afterParen =>
    let argChars := afterParen.takeWhile isCbArgChar
    match nameChars, afterParen.dropWhile isCbArgChar with
    | [], _ => none
    | _, [')'] => some (String.mk nameChars, String.mk argChars)
    | _, _ => none
  | _ => none

/-- `cbMethodArgs.split(',').filter(Boolean).map(trim)`. -/
def splitListenerArgs (cbMethodArgs : String) : List String :=
  ((splitOnChar ',' cbMethodArgs).filter (fun a => !a.isEmpty)).map strTrim

/-- `processHostListenerCallback`: parse `method(arg1,arg2)` into
`[methodName, ...args]`; a failed regex match is a thrown `TypeError`. -/
def processHostListenerCallback (eventName cbString : String) :
    Except String (String × List String) :=
  match execHostListenerRegex cbString with
  | none => Except.error "TypeError: cannot destructure null host listener match"
  | some (cbMethodName, cbMethodArgs) =>
    Except.ok (eventName, cbMethodName :: splitListenerArgs cbMethodArgs)

/-- The `reduce` classifying raw host-binding entries into
classes/attributes/properties. -/
def classifyHostBindings (hostBindingsRaw : List (String × String)) :
    HostBindingsProcessed :=
  hostBindingsRaw.foldl
    (fun acc p =>
      if hasClassRegexTest p.1 then
        { acc with classes := mapSet acc.classes (hasClassRegexStrip p.1) p.2 }
      else if hasAttrRegexTest p.1 then
        { acc with attributes := mapSet acc.attributes (hasAttrRegexStrip p.1) p.2 }
      else
        { acc with properties := mapSet acc.properties p.1 p.2 })
    ⟨[], [], []⟩

/-- First pass of `_processHost`: walk the host entries in order, bucketing
them into static attributes, raw reactive bindings and listener callbacks
(the latter can throw on a malformed callback string). -/
def processHostEntries :
    List (String × String) →
    (List (String × String) × List (String × String) × List (String × List String)) →
    Except String (List (String × String) × List (String × String) × List (String × List String))
  | [], acc => Except.ok acc
  | (hostKey, hostValue) :: rest, (hostStatic, hostBindingsRaw, hostListeners) =>
    let strippedKey := stripBindingOrListenerBrackets hostKey
    if isStaticHostKey hostKey then
      processHostEntries rest (mapSet hostStatic strippedKey hostValue, hostBindingsRaw, hostListeners)
    else if isHostBindingKey hostKey then
      processHostEntries rest (hostStatic, hostBindingsRaw ++ [(strippedKey, hostValue)], hostListeners)
    else if isHostListenerKey hostKey then
      match processHostListenerCallback strippedKey hostValue with
      | Except.error e => Except.error e
      | Except.ok (eventName, cbArray) =>
        processHostEntries rest (hostStatic, hostBindingsRaw, mapSet hostListeners eventName cbArray)
    else
      processHostEntries rest (hostStatic, hostBindingsRaw, hostListeners)

/-- `DirectiveProvider._processHost`: `none` input models an absent `host`
mapping (the source returns `undefined` for it). -/
def _processHost (host : Option (List (String × String))) :
    Except String (Option HostProcessed) :=
  match host with
  | none => Except.ok none
  | some hostEntries =>
    match processHostEntries hostEntries ([], [], []) with
    | Except.error e => Except.error e
    | Except.ok (hostStatic, hostBindingsRaw, hostListeners) =>
      Except.ok (some
        { hostStatic := hostStatic
          hostBindings := classifyHostBindings hostBindingsRaw
          hostListeners := hostListeners })

/-! ## Binding synthesis (`_extractBindings`, `_createComponentBindings`) -/

/-- `binding.split(SPLIT_BY).map(trim)` followed by the destructuring
`[name, alias = '']` (`SPLIT_BY` defaults to `':'` and is never overridden). -/
def parseBinding (splitBy : Char) (binding : String) : String × String :=
  let parts := (splitOnChar splitBy binding).map strTrim
  (parts.headD "", parts.getD 1 "")

/-- The declared property name of a binding declaration (split by `:`). -/
def bindingName (binding : String) : String :=
  (parseBinding ':' binding).1

/-- The `reduce` of `_extractBindings`, with explicit accumulator. -/
def extractBindingsAux (typeSymbol : String) :
    List String → List (String × String) → List (String × String)
  | [], acc => acc
  | binding :: rest, acc =>
    let parsed := parseBinding ':' binding
    extractBindingsAux typeSymbol rest (mapSet acc parsed.1 (typeSymbol ++ parsed.2))

/-- `_extractBindings( bindings, typeSymbol, SPLIT_BY = ':' )`. -/
def _extractBindings (bindings : List String) (typeSymbol : String) :
    List (String × String) :=
  extractBindingsAux typeSymbol bindings []

/-- `DirectiveProvider._createComponentBindings`: merge the three extracted
maps with `assign({}, inputs, attrs, outputs)`. -/
def _createComponentBindings (inputs attrs outputs : List String) :
    List (String × String) :=
  assignMap (assignMap (_extractBindings inputs "=") (_extractBindings attrs "@"))
    (_extractBindings outputs "&")

/-! ## Metadata, lifecycle-hook flags, queries -/

/-- Presence flags of the implemented lifecycle hooks, precomputed by
`resolveImplementedLifeCycleHooks` (a reflection collaborator). -/
structure ImplementedLifeCycleHooks where
  ngOnInit : Bool
  ngOnDestroy : Bool
  ngAfterContentInit : Bool
  ngAfterContentChecked : Bool
  ngAfterViewInit : Bool
  ngAfterViewChecked : Bool
deriving DecidableEq, Repr

/-- The four query-declaration variants of `metadata_di`. -/
inductive QueryMetadata where
  | ViewChild (selector : String)
  | ViewChildren (selector : String)
  | ContentChild (selector : String)
  | ContentChildren (selector : String)
deriving DecidableEq, Repr

/-- `LegacyDirectiveDefinition`: only its `transclude` field is inspected by
the verified code (`getValueFromPath( metadata, 'legacy.transclude' )`); the
raw override keys merged into the DDO are carried opaquely. -/
structure LegacyDirectiveDefinition where
  transclude : Option Bool
deriving DecidableEq, Repr

/-- The descriptor fields shared by `@Directive` and `@Component` metadata. -/
structure DirectiveMetadataFields where
  selector : String
  inputs : List String
  attrs : List String
  outputs : List String
  host : Option (List (String × String))
  queries : List (String × QueryMetadata)
  legacy : Option LegacyDirectiveDefinition
deriving DecidableEq, Repr

/-- `DirectiveMetadata` / `ComponentMetadata` (the component variant adds the
optional `template` and `templateUrl` strings). -/
inductive Metadata where
  | directive (fields : DirectiveMetadataFields)
  | component (fields : DirectiveMetadataFields)
      (template : Option String) (templateUrl : Option String)
deriving DecidableEq, Repr

def Metadata.fields : Metadata → DirectiveMetadataFields
  | Metadata.directive f => f
  | Metadata.component f _ _ => f

/-- Truthiness of `getValueFromPath( metadata, 'legacy.transclude' )`. -/
def legacyTranscludeTruthy (f : DirectiveMetadataFields) : Bool :=
  match f.legacy with
  | none => false
  | some l => l.transclude.getD false

/-! ## Link creation (`DirectiveProvider._createLink`) -/

/-- The compile-time outcome of `_createLink`: whether a `pre` link function
exists (`{ pre, post }` is returned instead of the bare post-link), the
required-controller variable names, and the processed host spec captured by
the link closures. The run-time behaviour of the closures themselves is
modelled separately (scheduler, destroy handler, listener dispatch). -/
structure CreatedLink where
  hasPreLink : Bool
  requiredCtrlVarNames : List String
  hostProcessed : Option HostProcessed
deriving DecidableEq, Repr

/-- `DirectiveProvider._createLink`, compile-time part: the validation throws
and the data computed before the link closures are produced. -/
def _createLink (meta : Metadata) (lfHooks : ImplementedLifeCycleHooks)
    (requireMap : List (String × String)) : Except String CreatedLink :=
  if (lfHooks.ngAfterContentChecked || lfHooks.ngAfterViewChecked)
      && meta.fields.queries.length = 0 then
    Except.error "You have implement AfterContentChecked/AfterViewChecked lifecycle, but @ViewChild(ren)/@ContentChild(ren) decorators are not used. we cannot invoke After(Content|View)Checked without provided @Query decorators"
  else
    let requiredCtrlVarNames := mapKeys requireMap
    match _processHost meta.fields.host with
    | Except.error e => Except.error e
    | Except.ok hostProcessed =>
      match meta with
      | Metadata.component f _ _ =>
        if (lfHooks.ngAfterContentInit || lfHooks.ngAfterContentChecked)
            && !legacyTranscludeTruthy f then
          Except.error "You cannot implement AfterContentInit lifecycle, without allowed transclusion. turn transclusion on within the decorator"
        else
          Except.ok
            { hasPreLink := lfHooks.ngOnInit
              requiredCtrlVarNames := requiredCtrlVarNames
              hostProcessed := hostProcessed }
      | Metadata.directive _ =>
        if lfHooks.ngAfterViewInit || lfHooks.ngAfterViewChecked then
          Except.error "You cannot implement AfterViewInit/AfterViewChecked for @Directive, because directive does not have View so you probably doing something wrong. @Directive support only AfterContentInit/AfterContentChecked hook which is triggered from postLink"
        else
          Except.ok
            { hasPreLink := lfHooks.ngOnInit
              requiredCtrlVarNames := requiredCtrlVarNames
              hostProcessed := hostProcessed }

/-! ## Descriptor compilation (`DirectiveProvider.createFromType`) -/

/-- Modelled from the spec: `resolveDirectiveNameFromSelector` lives in the
language facade (`facade/lang`), which is not among the verified sources; the
spec only says the compiler "produces the name + factory pair", so name
resolution is kept as the identity on the selector string. -/
def resolveDirectiveNameFromSelector (selector : String) : String := selector

/-- `DirectiveProvider._createRequires`:
`[directiveName, ...StringMapWrapper.values(requireMap)]`. -/
def _createRequires (requireMap : List (String × String)) (directiveName : String) :
    List String :=
  directiveName :: requireMap.map (fun p => p.2)

/-- The directive-definition object assembled by `createFromType` (the fields
the verified code writes; `controller` is the class itself and is omitted). -/
structure DDO where
  require : List String
  scopeIsolate : Bool
  bindToController : Option (List (String × String))
  controllerAs : Option String
  transclude : Option Bool
  template : Option String
  templateUrl : Option String
  link : Option CreatedLink
  compileFromStatic : Bool
  linkFromStaticOverride : Bool
  legacy : Option LegacyDirectiveDefinition
deriving DecidableEq, Repr

/-- Everything `createFromType` reads from `type` and its resolver
collaborators: the resolved metadata, the implemented-hook flags, the
required-directives map and the optional static `compile`/`link` overrides. -/
structure ResolvedType where
  meta : Metadata
  lfHooks : ImplementedLifeCycleHooks
  requireMap : List (String × String)
  hasStaticCompile : Bool
  hasStaticLink : Bool
deriving DecidableEq, Repr

/-- `DirectiveProvider._createDDO`: `assign({}, shell, ddo, legacy)`. The
shell only provides no-op defaults that every generated DDO overrides; the raw
legacy override keys are recorded on the result. -/
def _createDDO (ddo : DDO) (legacyDDO : Option LegacyDirectiveDefinition) : DDO :=
  { ddo with legacy := legacyDDO }

/-- `DirectiveProvider.createFromType`, as `Except`: a thrown error means no
`(name, factory)` pair is produced. Evaluation order follows the source: the
component DDO literal evaluates `_createComponentBindings` and `_createLink`
before the dual-template check runs. -/
def createFromType (t : ResolvedType) : Except String (String × DDO) :=
  let directiveName := resolveDirectiveNameFromSelector t.meta.fields.selector
  let require := _createRequires t.requireMap directiveName
  match t.meta with
  | Metadata.component f tpl tplUrl =>
    let bindToController := _createComponentBindings f.inputs f.attrs f.outputs
    match _createLink t.meta t.lfHooks t.requireMap with
    | Except.error e => Except.error e
    | Except.ok link =>
      if strTruthy tpl && strTruthy tplUrl then
        Except.error "cannot have both template and templateUrl"
      else
        Except.ok (directiveName, _createDDO
          { require := require
            scopeIsolate := true
            bindToController := some bindToController
            controllerAs := some "$ctrl"
            transclude := some false
            template := if strTruthy tpl then tpl else none
            templateUrl := if strTruthy tplUrl then tplUrl else none
            link := some link
            compileFromStatic := t.hasStaticCompile
            linkFromStaticOverride := t.hasStaticLink
            legacy := none } f.legacy)
  | Metadata.directive f =>
    match _createLink t.meta t.lfHooks t.requireMap with
    | Except.error e => Except.error e
    | Except.ok link =>
      Except.ok (directiveName, _createDDO
        { require := require
          scopeIsolate := false
          bindToController := none
          controllerAs := none
          transclude := none
          template := none
          templateUrl := none
          link := some link
          compileFromStatic := t.hasStaticCompile
          linkFromStaticOverride := t.hasStaticLink
          legacy := none } f.legacy)

/-! ## Children-change scheduler (`_setQuery` / `_ngOnChildrenChanged`) -/

/-- The `ChildrenChangeHook` enum of `directive_lifecycle_interfaces`. -/
inductive ChildrenChangeHook where
  | FromView
  | FromContent
deriving DecidableEq, Repr

/-- The two per-controller semaphore flags
(`__readViewChildrenOrderScheduled` / `__readContentChildrenOrderScheduled`). -/
structure QuerySemaphores where
  readViewChildrenOrderScheduled : Bool
  readContentChildrenOrderScheduled : Bool
deriving DecidableEq, Repr

/-- Read `ctrl[ orderScheduledSemaphorePropName ]` for a kind. -/
def getSemaphore (s : QuerySemaphores) : ChildrenChangeHook → Bool
  | ChildrenChangeHook.FromView => s.readViewChildrenOrderScheduled
  | ChildrenChangeHook.FromContent => s.readContentChildrenOrderScheduled

/-- Write `ctrl[ orderScheduledSemaphorePropName ] = b` for a kind. -/
def setSemaphore (s : QuerySemaphores) : ChildrenChangeHook → Bool → QuerySemaphores
  | ChildrenChangeHook.FromView, b => { s with readViewChildrenOrderScheduled := b }
  | ChildrenChangeHook.FromContent, b => { s with readContentChildrenOrderScheduled := b }

/-- One resolver closure built by `_resolveChildrenFactory`: the controller
property it assigns, the query selector, and whether it picks only the first
match (`ViewChild`/`ContentChild`) or all matches. -/
structure ResolverSpec where
  key : String
  selector : String
  firstOnly : Bool
deriving DecidableEq, Repr

/-- `_onChildrenChangedCbMap`: the view/content buckets of resolver
callbacks, in registration order. -/
structure OnChildrenChangedCbMap where
  view : List ResolverSpec
  content : List ResolverSpec
deriving DecidableEq, Repr

/-- `_getOnChildrenResolvers`: bucket each query declaration, in iteration
order, into the view or content resolver list. -/
def _getOnChildrenResolvers (queries : List (String × QueryMetadata)) :
    OnChildrenChangedCbMap :=
  queries.foldl
    (fun acc q =>
      match q.2 with
      | QueryMetadata.ViewChild sel =>
        { acc with view := acc.view ++ [⟨q.1, sel, true⟩] }
      | QueryMetadata.ViewChildren sel =>
        { acc with view := acc.view ++ [⟨q.1, sel, false⟩] }
      | QueryMetadata.ContentChild sel =>
        { acc with content := acc.content ++ [⟨q.1, sel, true⟩] }
      | QueryMetadata.ContentChildren sel =>
        { acc with content := acc.content ++ [⟨q.1, sel, false⟩] })
    ⟨[], []⟩

/-- `domResolverCb[ domResolverCbType ]` selection. -/
def resolversForKind (m : OnChildrenChangedCbMap) : ChildrenChangeHook → List ResolverSpec
  | ChildrenChangeHook.FromView => m.view
  | ChildrenChangeHook.FromContent => m.content

/-- One queued `scope.$evalAsync` thunk of the scheduler: the kind it was
armed for and the completion-callback list captured at notification time
(`none` entries are non-function values such as `undefined`, function entries
carry an identifier). -/
structure DeferredTask where
  kind : ChildrenChangeHook
  onFirstChangeDoneCb : List (Option Nat)
deriving DecidableEq, Repr

/-- The scheduler-relevant mutable state: the controller's semaphore pair and
the scope's `$evalAsync` queue. -/
structure SchedulerState where
  semaphores : QuerySemaphores
  evalAsyncQueue : List DeferredTask
deriving DecidableEq, Repr

/-- The `_ngOnChildrenChanged` notifier installed on the controller: if the
semaphore for the kind is already set, return unchanged; otherwise set it and
schedule the deferred batch via `scope.$evalAsync`. (The source's else-throw
for an unrecognized kind is unreachable over the two-valued enum.) -/
def _ngOnChildrenChanged (st : SchedulerState) (type : ChildrenChangeHook)
    (onFirstChangeDoneCb : List (Option Nat)) : SchedulerState :=
  if getSemaphore st.semaphores type then
    st
  else
    { semaphores := setSemaphore st.semaphores type true
      evalAsyncQueue := st.evalAsyncQueue ++ [⟨type, onFirstChangeDoneCb⟩] }

/-- Observable events of one deferred batch execution. -/
inductive BatchEvent where
  | clearSemaphore (kind : ChildrenChangeHook)
  | resolve (kind : ChildrenChangeHook) (r : ResolverSpec)
  | callback (id : Nat)
deriving DecidableEq, Repr

def isCallbackEvent : BatchEvent → Bool
  | BatchEvent.callback _ => true
  | _ => false

def isResolveEvent : BatchEvent → Bool
  | BatchEvent.resolve _ _ => true
  | _ => false

/-- Invoking one completion-callback entry (`cb()`): calling a non-function
would raise a `TypeError`. -/
def callCb (cb : Option Nat) : Except String BatchEvent :=
  match cb with
  | some f => Except.ok (BatchEvent.callback f)
  | none => Except.error "TypeError: cb is not a function"

/-- `onFirstChangeDoneCb.forEach( cb => { isFunction( cb ) && cb() } )`. -/
def runDoneCallbacks : List (Option Nat) → Except String (List BatchEvent)
  | [] => Except.ok []
  | cb :: rest =>
    if cb.isSome then
      match callCb cb with
      | Except.error e => Except.error e
      | Except.ok e =>
        match runDoneCallbacks rest with
        | Except.error e2 => Except.error e2
        | Except.ok es => Except.ok (e :: es)
    else
      runDoneCallbacks rest

/-- The body of the deferred `$evalAsync` thunk: clear the semaphore, run
every resolver bucketed under the kind in registration order, then invoke the
completion callbacks in the order supplied. Returns the new semaphore state
and the event trace. -/
def runDeferredTask (resolvers : OnChildrenChangedCbMap) (task : DeferredTask)
    (sem : QuerySemaphores) : Except String (QuerySemaphores × List BatchEvent) :=
  let semCleared := setSemaphore sem task.kind false
  let resolveEvents := (resolversForKind resolvers task.kind).map (BatchEvent.resolve task.kind)
  match runDoneCallbacks task.onFirstChangeDoneCb with
  | Except.error e => Except.error e
  | Except.ok cbEvents =>
    Except.ok (semCleared, BatchEvent.clearSemaphore task.kind :: (resolveEvents ++ cbEvents))

/-- Drain a `$evalAsync` queue: run the queued deferred batches in order,
threading the semaphore state and concatenating the traces. -/
def runTasks (resolvers : OnChildrenChangedCbMap) :
    List DeferredTask → QuerySemaphores → Except String (QuerySemaphores × List BatchEvent)
  | [], sem => Except.ok (sem, [])
  | task :: rest, sem =>
    match runDeferredTask resolvers task sem with
    | Except.error e => Except.error e
    | Except.ok (sem1, tr1) =>
      match runTasks resolvers rest sem1 with
      | Except.error e => Except.error e
      | Except.ok (sem2, tr2) => Except.ok (sem2, tr1 ++ tr2)

/-! ## Completion-callback lists built in the postLink functions -/

/-- The controller's optional after-view/after-content hook implementations
(`none` = the controller does not implement the hook, so the postLink's
`ctrl.ngAfterXxx && ctrl.ngAfterXxx.bind( ctrl )` evaluates to `undefined`). -/
structure ControllerHooks where
  ngAfterViewInit : Option Nat
  ngAfterViewChecked : Option Nat
  ngAfterContentInit : Option Nat
  ngAfterContentChecked : Option Nat
deriving DecidableEq, Repr

/-- The completion-callback list the component postLink passes for
`FromView`. The first entry is the value of the eagerly evaluated expression
`parentCheckedNotifiers.forEach( cb => cb() )`, i.e. `undefined`. -/
def viewFirstChangeDoneCbs (ctrl : ControllerHooks) : List (Option Nat) :=
  [none, ctrl.ngAfterViewInit, ctrl.ngAfterViewChecked]

/-- The completion-callback list passed for `FromContent` (component and
directive postLink alike); same `undefined` first entry. -/
def contentFirstChangeDoneCbs (ctrl : ControllerHooks) : List (Option Nat) :=
  [none, ctrl.ngAfterContentInit, ctrl.ngAfterContentChecked]

/-! ## Destroy handling (`_setupDestroyHandler`) -/

/-- Observable events of the `$destroy` handler. -/
inductive DestroyEvent where
  | hook
  | disposeWatcher (id : Nat)
  | disposeObserver (id : Nat)
  | elementOff
deriving DecidableEq, Repr

/-- The `scope.$on( '$destroy', ... )` handler registered by
`_setupDestroyHandler`, as the event trace produced when the node detaches:
invoke `ngOnDestroy` when implemented, then dispose every watcher, then every
observer, then `element.off()`. Disposal functions are identifiers. -/
def destroyHandlerTrace (implementsNgOnDestroy : Bool)
    (watchersToDispose observersToDispose : List Nat) : List DestroyEvent :=
  (if implementsNgOnDestroy then [DestroyEvent.hook] else [])
    ++ watchersToDispose.map DestroyEvent.disposeWatcher
    ++ observersToDispose.map DestroyEvent.disposeObserver
    ++ [DestroyEvent.elementOff]

/-! ## Host listener dispatch (`_getHostListenerCbParams`) -/

/-- Modelled from the spec: `StringMapWrapper.getValueFromPath` comes from the
collections facade, which is not among the verified sources. The spec
describes the arguments as "a dotted path beginning with $event (e.g.
$event.target.value)"; events are modelled as a flat table keyed by dotted
path, and a missing path yields no value (`undefined`). -/
structure EventObj where
  props : List (String × String)
deriving DecidableEq, Repr

/-- Strip the leading dots of the residual path (the source passes
`eventPath.replace( '$event', '' )`, e.g. `.target.value`). -/
def normalizeEventPath (path : String) : String :=
  String.mk (path.toList.dropWhile (fun c => c = '.'))

/-- Modelled from the spec: dotted-path navigation into the event object. -/
def getValueFromPath (ev : EventObj) (path : String) : Option String :=
  mapGet ev.props (normalizeEventPath path)

/-- A value passed to the listener method: the whole `$event` object, or the
value found under a `$event.*` path. -/
inductive CbParam where
  | wholeEvent
  | pathValue (v : Option String)
deriving DecidableEq, Repr

/-- `_getHostListenerCbParams`: runs inside the `element.on` handler when the
event fires. Each argument must start with `$event`, else a compile-style
error is thrown at dispatch time; `$event` itself passes the event object,
and any other `$event...` token is looked up as a path (`replace('$event','')`
removes the prefix the guard just established, hence `drop 6`). -/
def _getHostListenerCbParams (event : EventObj) :
    List String → Except String (List CbParam)
  | [] => Except.ok []
  | eventPath :: rest =>
    if !(strStartsWith eventPath "$event") then
      Except.error "only $event.* is supported. Please provide correct listener parameter"
    else
      let v := if eventPath = "$event" then CbParam.wholeEvent
               else CbParam.pathValue (getValueFromPath event (eventPath.drop 6))
      match _getHostListenerCbParams event rest with
      | Except.error e => Except.error e
      | Except.ok vs => Except.ok (v :: vs)

/-! ## Concrete inputs used by witnesses and counterexamples -/

/-- A descriptor-field record with everything empty except the selector. -/
def plainFields : DirectiveMetadataFields :=
  { selector := "[my-dir]"
    inputs := []
    attrs := []
    outputs := []
    host := none
    queries := []
    legacy := none }

/-- All-false lifecycle-hook flags. -/
def noHooks : ImplementedLifeCycleHooks :=
  { ngOnInit := false
    ngOnDestroy := false
    ngAfterContentInit := false
    ngAfterContentChecked := false
    ngAfterViewInit := false
    ngAfterViewChecked := false }

/-- A component declaring both a non-empty `template` and a non-empty
`templateUrl`. -/
def dualTemplateDescriptor : ResolvedType :=
  { meta := Metadata.component plainFields (some "<div></div>") (some "tpl.html")
    lfHooks := noHooks
    requireMap := []
    hasStaticCompile := false
    hasStaticLink := false }

/-- A plain directive whose host declares the listener
`"(click)": "onClick(foo)"` — the argument `foo` is not `$event`-rooted. -/
def badListenerDescriptor : ResolvedType :=
  { meta := Metadata.directive
      { plainFields with host := some [("(click)", "onClick(foo)")] }
    lfHooks := noHooks
    requireMap := []
    hasStaticCompile := false
    hasStaticLink := false }

/-! ## Helper lemmas -/

theorem mapGet_nil {α : Type} (k : String) : mapGet ([] : List (String × α)) k = none := rfl

theorem mapGet_cons {α : Type} (p : String × α) (m : List (String × α)) (k : String) :
    mapGet (p :: m) k = if p.1 = k then some p.2 else mapGet m k := by
  by_cases h : p.1 = k <;> simp [mapGet, List.find?_cons, h]

theorem mapGet_mapSet_self {α : Type} (m : List (String × α)) (k : String) (v : α) :
    mapGet (mapSet m k v) k = some v := by
  induction m with
  | nil => simp [mapSet, mapGet_cons]
  | cons p rest ih =>
    by_cases h : p.1 = k
    · simp [mapSet, h, mapGet_cons]
    · simp [mapSet, h, mapGet_cons, ih]

theorem mapGet_mapSet_ne {α : Type} (m : List (String × α)) (k k2 : String) (v : α)
    (h : k2 ≠ k) : mapGet (mapSet m k v) k2 = mapGet m k2 := by
  have hne : ¬(k = k2) := fun hh => h hh.symm
  induction m with
  | nil => simp [mapSet, mapGet_cons, mapGet_nil, hne]
  | cons p rest ih =>
    by_cases hp : p.1 = k
    · simp only [mapSet, if_pos hp, mapGet_cons]
      rw [hp, if_neg hne, if_neg hne]
    · simp only [mapSet, if_neg hp, mapGet_cons, ih]

theorem mapKeys_nil {α : Type} : mapKeys ([] : List (String × α)) = [] := rfl

theorem mapKeys_cons {α : Type} (p : String × α) (m : List (String × α)) :
    mapKeys (p :: m) = p.1 :: mapKeys m := rfl

theorem mapGet_eq_none_of_not_mem {α : Type} (m : List (String × α)) (k : String)
    (h : k ∉ mapKeys m) : mapGet m k = none := by
  induction m with
  | nil => rfl
  | cons p rest ih =>
    rw [mapKeys_cons] at h
    have hp : ¬(p.1 = k) := fun hh => h (hh ▸ List.mem_cons_self _ _)
    have hrest : k ∉ mapKeys rest := fun hh => h (List.mem_cons_of_mem _ hh)
    rw [mapGet_cons, if_neg hp, ih hrest]

theorem mem_mapKeys_mapSet {α : Type} (m : List (String × α)) (k : String) (v : α)
    (a : String) : a ∈ mapKeys (mapSet m k v) ↔ a = k ∨ a ∈ mapKeys m := by
  induction m with
  | nil => simp [mapSet, mapKeys]
  | cons p rest ih =>
    by_cases hp : p.1 = k
    · simp only [mapSet, if_pos hp, mapKeys_cons]
      rw [← hp]
      simp [List.mem_cons]
    · simp only [mapSet, if_neg hp, mapKeys_cons, List.mem_cons, ih]
      tauto

theorem nodupKeys_nil {α : Type} : NodupKeys ([] : List (String × α)) := by
  simp [NodupKeys, mapKeys]

theorem nodupKeys_mapSet {α : Type} (m : List (String × α)) (k : String) (v : α)
    (h : NodupKeys m) : NodupKeys (mapSet m k v) := by
  induction m with
  | nil => simp [mapSet, NodupKeys, mapKeys]
  | cons p rest ih =>
    rw [NodupKeys, mapKeys_cons, List.nodup_cons] at h
    by_cases hp : p.1 = k
    · simp only [mapSet, if_pos hp]
      rw [NodupKeys, mapKeys_cons, List.nodup_cons]
      exact ⟨by rw [show ((k, v) : String × α).1 = p.1 from hp.symm]; exact h.1, h.2⟩
    · simp only [mapSet, if_neg hp]
      rw [NodupKeys, mapKeys_cons, List.nodup_cons]
      refine ⟨fun hmem => ?_, ih h.2⟩
      rcases (mem_mapKeys_mapSet rest k v p.1).mp hmem with hh | hh
      · exact hp hh
      · exact h.1 hh

theorem assignMap_get_of_none {α : Type} (m1 m2 : List (String × α)) (k : String)
    (h : mapGet m2 k = none) : mapGet (assignMap m1 m2) k = mapGet m1 k := by
  induction m2 generalizing m1 with
  | nil => rfl
  | cons p rest ih =>
    rw [mapGet_cons] at h
    by_cases hp : p.1 = k
    · rw [if_pos hp] at h
      exact absurd h (by simp)
    · rw [if_neg hp] at h
      rw [assignMap, ih (mapSet m1 p.1 p.2) h, mapGet_mapSet_ne _ _ _ _ (fun hh => hp hh.symm)]

theorem assignMap_get_of_some {α : Type} (m1 m2 : List (String × α)) (k : String) (v : α)
    (hnd : NodupKeys m2) (h : mapGet m2 k = some v) :
    mapGet (assignMap m1 m2) k = some v := by
  induction m2 generalizing m1 with
  | nil => exact absurd h (by simp [mapGet])
  | cons p rest ih =>
    rw [NodupKeys, mapKeys_cons, List.nodup_cons] at hnd
    rw [mapGet_cons] at h
    by_cases hp : p.1 = k
    · rw [if_pos hp] at h
      have hkrest : k ∉ mapKeys rest := hp ▸ hnd.1
      rw [assignMap, assignMap_get_of_none _ _ _ (mapGet_eq_none_of_not_mem _ _ hkrest),
        hp, mapGet_mapSet_self]
      exact h.symm ▸ rfl
    · rw [if_neg hp] at h
      rw [assignMap]
      exact ih _ hnd.2 h

/-! ## Lemmas about the extracted binding maps -/

theorem extractBindingsAux_get_of_not_mem (sym : String) (bindings : List String)
    (acc : List (String × String)) (k : String)
    (h : k ∉ bindings.map bindingName) :
    mapGet (extractBindingsAux sym bindings acc) k = mapGet acc k := by
  induction bindings generalizing acc with
  | nil => rfl
  | cons b rest ih =>
    rw [List.map_cons] at h
    have hb : ¬(bindingName b = k) := fun hh => h (hh ▸ List.mem_cons_self _ _)
    have hrest : k ∉ rest.map bindingName := fun hh => h (List.mem_cons_of_mem _ hh)
    simp only [extractBindingsAux]
    rw [ih _ hrest, mapGet_mapSet_ne]
    exact fun hh => hb hh.symm

theorem extractBindingsAux_get_unique (sym : String) (bindings : List String)
    (acc : List (String × String)) (d k alias2 : String)
    (hmem : d ∈ bindings) (hparse : parseBinding ':' d = (k, alias2))
    (hcount : (bindings.map bindingName).count k = 1) :
    mapGet (extractBindingsAux sym bindings acc) k = some (sym ++ alias2) := by
  have hdk : bindingName d = k := by rw [bindingName, hparse]
  induction bindings generalizing acc with
  | nil => exact absurd hmem (List.not_mem_nil d)
  | cons b rest ih =>
    rw [List.map_cons, List.count_cons] at hcount
    by_cases hb : bindingName b = k
    · have hrest0 : (rest.map bindingName).count k = 0 := by
        rw [if_pos (by exact beq_iff_eq.mpr hb)] at hcount
        omega
      have hnotmem : k ∉ rest.map bindingName := List.count_eq_zero.mp hrest0
      have hdb : d = b := by
        rcases List.mem_cons.mp hmem with hmem2 | hmem2
        · exact hmem2
        · exact absurd (hdk ▸ List.mem_map_of_mem bindingName hmem2) hnotmem
      have hbparse : parseBinding ':' b = (k, alias2) := hdb ▸ hparse
      simp only [extractBindingsAux]
      rw [extractBindingsAux_get_of_not_mem _ _ _ _ hnotmem, hbparse, mapGet_mapSet_self]
    · have hcount2 : (rest.map bindingName).count k = 1 := by
        rw [if_neg (by simpa using hb)] at hcount
        omega
      have hdmem : d ∈ rest := by
        rcases List.mem_cons.mp hmem with hmem2 | hmem2
        · exact absurd (hmem2 ▸ hdk) hb
        · exact hmem2
      simp only [extractBindingsAux]
      exact ih _ hdmem hcount2

theorem extractBindings_get_of_not_mem (bindings : List String) (sym : String) (k : String)
    (h : k ∉ bindings.map bindingName) :
    mapGet (_extractBindings bindings sym) k = none := by
  rw [_extractBindings, extractBindingsAux_get_of_not_mem _ _ _ _ h, mapGet_nil]

theorem nodupKeys_extractBindingsAux (sym : String) (bindings : List String)
    (acc : List (String × String)) (h : NodupKeys acc) :
    NodupKeys (extractBindingsAux sym bindings acc) := by
  induction bindings generalizing acc with
  | nil => exact h
  | cons b rest ih => exact ih _ (nodupKeys_mapSet _ _ _ h)

theorem nodupKeys_extractBindings (bindings : List String) (sym : String) :
    NodupKeys (_extractBindings bindings sym) :=
  nodupKeys_extractBindingsAux _ _ _ (by simp [NodupKeys, mapKeys])

/-! ## Lemmas about the scheduler -/

theorem getSemaphore_setSemaphore_self (s : QuerySemaphores) (k : ChildrenChangeHook)
    (b : Bool) : getSemaphore (setSemaphore s k b) k = b := by
  cases k <;> rfl

theorem setSemaphore_setSemaphore (s : QuerySemaphores) (k : ChildrenChangeHook)
    (b b2 : Bool) : setSemaphore (setSemaphore s k b) k b2 = setSemaphore s k b2 := by
  cases k <;> rfl

theorem runDoneCallbacks_eq (cbs : List (Option Nat)) :
    runDoneCallbacks cbs = Except.ok ((cbs.filterMap id).map BatchEvent.callback) := by
  induction cbs with
  | nil => rfl
  | cons cb rest ih => cases cb <;> simp [runDoneCallbacks, callCb, ih, List.filterMap_cons]

/-- In a trace `A ++ B` where `A` has no callback events and `B` has no
resolve events, every resolve event is positioned before every callback
event. -/
theorem no_callback_before_resolve (A B : List BatchEvent)
    (hA : ∀ a ∈ A, isCallbackEvent a = false)
    (hB : ∀ b ∈ B, isResolveEvent b = false)
    (i j : Nat) (hi : i < (A ++ B).length) (hj : j < (A ++ B).length)
    (hci : isCallbackEvent ((A ++ B).get ⟨i, hi⟩) = true)
    (hrj : isResolveEvent ((A ++ B).get ⟨j, hj⟩) = true) : j < i := by
  have hAi : A.length ≤ i := by
    by_contra hlt
    push_neg at hlt
    rw [show (A ++ B).get ⟨i, hi⟩ = A[i] from List.getElem_append_left hlt] at hci
    rw [hA A[i] (List.getElem_mem hlt)] at hci
    exact Bool.false_ne_true hci
  have hBj : j < A.length := by
    by_contra hge
    push_neg at hge
    have hjb : j - A.length < B.length := by
      rw [List.length_append] at hj
      omega
    rw [show (A ++ B).get ⟨j, hj⟩ = B[j - A.length] from List.getElem_append_right hge] at hrj
    rw [hB B[j - A.length] (List.getElem_mem hjb)] at hrj
    exact Bool.false_ne_true hrj
  omega

/-! ## Claim C1 -/

/-- Claim C1: for every controller instance with declared queries, the
deferred batch task created by the children-change notifier for a kind first
clears that kind's semaphore flag, then runs every resolver registered under
that kind in registration order, and only after all resolvers have completed
invokes the supplied completion callbacks in the order supplied; no
completion callback runs before any resolver of the batch. -/
theorem deferred_batch_order (resolvers : OnChildrenChangedCbMap)
    (kind : ChildrenChangeHook) (cbs : List (Option Nat)) (sem : QuerySemaphores) :
    runDeferredTask resolvers ⟨kind, cbs⟩ sem =
      Except.ok (setSemaphore sem kind false,
        BatchEvent.clearSemaphore kind ::
          ((resolversForKind resolvers kind).map (BatchEvent.resolve kind)
            ++ (cbs.filterMap id).map BatchEvent.callback)) ∧
    (∀ (sem2 : QuerySemaphores) (tr : List BatchEvent),
      runDeferredTask resolvers ⟨kind, cbs⟩ sem = Except.ok (sem2, tr) →
      getSemaphore sem2 kind = false ∧
      ∀ (i j : Nat) (hi : i < tr.length) (hj : j < tr.length),
        isCallbackEvent (tr.get ⟨i, hi⟩) = true →
        isResolveEvent (tr.get ⟨j, hj⟩) = true → j < i) := by
  have hrun : runDeferredTask resolvers ⟨kind, cbs⟩ sem =
      Except.ok (setSemaphore sem kind false,
        BatchEvent.clearSemaphore kind ::
          ((resolversForKind resolvers kind).map (BatchEvent.resolve kind)
            ++ (cbs.filterMap id).map BatchEvent.callback)) := by
    simp only [runDeferredTask, runDoneCallbacks_eq]
  refine ⟨hrun, fun sem2 tr heq => ?_⟩
  rw [hrun] at heq
  have hpair : sem2 = setSemaphore sem kind false ∧
      tr = BatchEvent.clearSemaphore kind ::
        ((resolversForKind resolvers kind).map (BatchEvent.resolve kind)
          ++ (cbs.filterMap id).map BatchEvent.callback) := by
    have := Except.ok.inj heq
    exact ⟨(congrArg Prod.fst this).symm, (congrArg Prod.snd this).symm⟩
  refine ⟨hpair.1 ▸ getSemaphore_setSemaphore_self sem kind false, ?_⟩
  have htr := hpair.2
  subst htr
  rw [← List.cons_append]
  refine no_callback_before_resolve _ _ ?_ ?_
  · intro a ha
    rcases List.mem_cons.mp ha with h | h
    · rw [h]; rfl
    · rcases List.mem_map.mp h with ⟨r, _, hr⟩
      rw [← hr]; rfl
  · intro b hb
    rcases List.mem_map.mp hb with ⟨c, _, hc⟩
    rw [← hc]; rfl

/-- Witness for C1 at a concrete resolver bucket, callback list and
semaphore state. -/
theorem deferred_batch_order_witness :
    runDeferredTask ⟨[⟨"q", "sel", true⟩], []⟩
        ⟨ChildrenChangeHook.FromView, [none, some 0]⟩ ⟨true, false⟩ =
      Except.ok (⟨false, false⟩,
        [BatchEvent.clearSemaphore ChildrenChangeHook.FromView,
         BatchEvent.resolve ChildrenChangeHook.FromView ⟨"q", "sel", true⟩,
         BatchEvent.callback 0]) :=
  (deferred_batch_order ⟨[⟨"q", "sel", true⟩], []⟩ ChildrenChangeHook.FromView
    [none, some 0] ⟨true, false⟩).1

/-! ## Claim C2 -/

/-- Claim C2: calling the children-change notifier twice in immediate
succession for the same kind, before the scheduled deferred batch fires, is
coalesced: the second call is a no-op (the semaphore for that kind being
already set); exactly one deferred batch is pending, and draining the queue
performs exactly one resolver pass and one invocation of the completion
callbacks of the FIRST call; moreover the notifier never lets the number of
pending batches of a kind exceed one. -/
theorem notifier_coalesces (resolvers : OnChildrenChangedCbMap)
    (kind : ChildrenChangeHook) (cbs cbs2 : List (Option Nat)) (st : SchedulerState)
    (hsem : getSemaphore st.semaphores kind = false)
    (hq : st.evalAsyncQueue = []) :
    _ngOnChildrenChanged (_ngOnChildrenChanged st kind cbs) kind cbs2 =
        _ngOnChildrenChanged st kind cbs ∧
    (_ngOnChildrenChanged st kind cbs).evalAsyncQueue = [⟨kind, cbs⟩] ∧
    runTasks resolvers (_ngOnChildrenChanged st kind cbs).evalAsyncQueue
        (_ngOnChildrenChanged st kind cbs).semaphores =
      Except.ok (setSemaphore st.semaphores kind false,
        BatchEvent.clearSemaphore kind ::
          ((resolversForKind resolvers kind).map (BatchEvent.resolve kind)
            ++ (cbs.filterMap id).map BatchEvent.callback)) ∧
    (∀ (st2 : SchedulerState),
      st2.evalAsyncQueue.countP (fun t => t.kind == kind) ≤ 1 →
      (getSemaphore st2.semaphores kind = false →
        st2.evalAsyncQueue.countP (fun t => t.kind == kind) = 0) →
      ((_ngOnChildrenChanged st2 kind cbs).evalAsyncQueue.countP
        (fun t => t.kind == kind)) ≤ 1) := by
  have hst1 : _ngOnChildrenChanged st kind cbs =
      { semaphores := setSemaphore st.semaphores kind true
        evalAsyncQueue := st.evalAsyncQueue ++ [⟨kind, cbs⟩] } := by
    rw [_ngOnChildrenChanged, if_neg (by simp [hsem])]
  refine ⟨?_, ?_, ?_, ?_⟩
  · rw [hst1, _ngOnChildrenChanged,
      if_pos (by simp [getSemaphore_setSemaphore_self])]
  · rw [hst1, hq]
    rfl
  · rw [hst1, hq]
    simp only [List.nil_append, runTasks, runDeferredTask, runDoneCallbacks_eq,
      setSemaphore_setSemaphore, List.append_nil]
  · intro st2 h1 h2
    by_cases hs : getSemaphore st2.semaphores kind = true
    · rw [_ngOnChildrenChanged, if_pos (by simp [hs])]
      exact h1
    · have hs2 : getSemaphore st2.semaphores kind = false := by
        revert hs
        cases getSemaphore st2.semaphores kind <;> simp
      rw [_ngOnChildrenChanged, if_neg (by simp [hs2])]
      have h0 := h2 hs2
      simp only [List.countP_append]
      rw [h0]
      simp [List.countP_cons]

/-- Witness for C2 at a concrete scheduler state: after two notifications for
the same kind, exactly the first call's batch is queued. -/
theorem notifier_coalesces_witness :
    (_ngOnChildrenChanged ⟨⟨false, false⟩, []⟩ ChildrenChangeHook.FromContent
      [some 7]).evalAsyncQueue = [⟨ChildrenChangeHook.FromContent, [some 7]⟩] :=
  (notifier_coalesces ⟨[], []⟩ ChildrenChangeHook.FromContent [some 7] [some 8]
    ⟨⟨false, false⟩, []⟩ rfl rfl).2.1

/-- The deferred batch task never throws: the callback guard makes
`runDoneCallbacks` total. -/
theorem runDeferredTask_ok (resolvers : OnChildrenChangedCbMap)
    (kind : ChildrenChangeHook) (cbs : List (Option Nat)) (sem : QuerySemaphores) :
    ∃ r, runDeferredTask resolvers ⟨kind, cbs⟩ sem = Except.ok r := by
  refine ⟨(setSemaphore sem kind false, BatchEvent.clearSemaphore kind ::
    ((resolversForKind resolvers kind).map (BatchEvent.resolve kind)
      ++ (cbs.filterMap id).map BatchEvent.callback)), ?_⟩
  simp only [runDeferredTask, runDoneCallbacks_eq]

/-! ## Claim C10 -/

/-- Claim C10: completion-callback entries that are not functions — in
particular the entries built for lifecycle hooks the controller does not
implement, which are `undefined`, and the always-`undefined` first entry —
are skipped without being invoked and without raising an error, so the
deferred task never throws on callback invocation whichever subset of the
after-view/after-content hooks the controller implements. -/
theorem missing_hook_callbacks_skipped (ctrl : ControllerHooks)
    (resolvers : OnChildrenChangedCbMap) (sem : QuerySemaphores) :
    runDoneCallbacks (viewFirstChangeDoneCbs ctrl) =
      Except.ok (([ctrl.ngAfterViewInit, ctrl.ngAfterViewChecked].filterMap id).map
        BatchEvent.callback) ∧
    runDoneCallbacks (contentFirstChangeDoneCbs ctrl) =
      Except.ok (([ctrl.ngAfterContentInit, ctrl.ngAfterContentChecked].filterMap id).map
        BatchEvent.callback) ∧
    (∃ r, runDeferredTask resolvers
      ⟨ChildrenChangeHook.FromView, viewFirstChangeDoneCbs ctrl⟩ sem = Except.ok r) ∧
    (∃ r, runDeferredTask resolvers
      ⟨ChildrenChangeHook.FromContent, contentFirstChangeDoneCbs ctrl⟩ sem = Except.ok r) := by
  refine ⟨?_, ?_, ?_, ?_⟩
  · rw [runDoneCallbacks_eq, viewFirstChangeDoneCbs]
    simp [List.filterMap_cons]
  · rw [runDoneCallbacks_eq, contentFirstChangeDoneCbs]
    simp [List.filterMap_cons]
  · exact runDeferredTask_ok resolvers ChildrenChangeHook.FromView
      (viewFirstChangeDoneCbs ctrl) sem
  · exact runDeferredTask_ok resolvers ChildrenChangeHook.FromContent
      (contentFirstChangeDoneCbs ctrl) sem

/-! ## Claim C3 -/

/-- Claim C3: for every component descriptor that declares both `template`
and `templateUrl` (as non-empty strings — a falsy template field is ignored,
i.e. treated as undeclared, throughout `createFromType`), compilation throws
before any `(name, factory)` pair is produced. -/
theorem dual_template_compile_error (t : ResolvedType) (f : DirectiveMetadataFields)
    (tpl tplUrl : Option String)
    (hm : t.meta = Metadata.component f tpl tplUrl)
    (ht : strTruthy tpl = true) (hu : strTruthy tplUrl = true) :
    ∃ e, createFromType t = Except.error e := by
  simp only [createFromType, hm]
  cases hlink : _createLink (Metadata.component f tpl tplUrl) t.lfHooks t.requireMap with
  | error e => exact ⟨e, rfl⟩
  | ok link =>
    refine ⟨"cannot have both template and templateUrl", ?_⟩
    simp [ht, hu]

/-- Witness for C3: the concrete dual-template component fails compilation. -/
theorem dual_template_compile_error_witness :
    ∃ e, createFromType dualTemplateDescriptor = Except.error e :=
  dual_template_compile_error dualTemplateDescriptor plainFields
    (some "<div></div>") (some "tpl.html") rfl rfl rfl

/-! ## Claim C4 -/

/-- Claim C4: a descriptor whose hook flags declare after-content-checked or
after-view-checked while declaring zero queries fails link creation with a
thrown error. -/
theorem checked_hook_without_queries_error (meta : Metadata)
    (lfHooks : ImplementedLifeCycleHooks) (requireMap : List (String × String))
    (h1 : (lfHooks.ngAfterContentChecked || lfHooks.ngAfterViewChecked) = true)
    (h2 : meta.fields.queries = []) :
    ∃ e, _createLink meta lfHooks requireMap = Except.error e := by
  rw [_createLink, if_pos (by simp [h1, h2])]
  exact ⟨_, rfl⟩

/-- Witness for C4: a directive implementing after-content-checked with no
queries fails. -/
theorem checked_hook_without_queries_error_witness :
    ∃ e, _createLink (Metadata.directive plainFields)
      ⟨false, false, false, true, false, false⟩ [] = Except.error e :=
  checked_hook_without_queries_error (Metadata.directive plainFields)
    ⟨false, false, false, true, false, false⟩ [] rfl rfl

/-! ## Claim C5 -/

/-- Claim C5: a plain (non-component) directive descriptor whose hook flags
declare after-view-init or after-view-checked fails link creation with a
thrown error, while a component descriptor declaring the after-view-init hook
(with no queries and no content hooks) compiles successfully. -/
theorem view_hooks_directive_vs_component :
    (∀ (f : DirectiveMetadataFields) (lfHooks : ImplementedLifeCycleHooks)
      (requireMap : List (String × String)),
      (lfHooks.ngAfterViewInit || lfHooks.ngAfterViewChecked) = true →
      ∃ e, _createLink (Metadata.directive f) lfHooks requireMap = Except.error e) ∧
    (∀ (f : DirectiveMetadataFields) (tpl tplUrl : Option String) (oi od : Bool)
      (requireMap : List (String × String)) (hp : Option HostProcessed),
      f.queries = [] →
      _processHost f.host = Except.ok hp →
      _createLink (Metadata.component f tpl tplUrl)
          ⟨oi, od, false, false, true, false⟩ requireMap =
        Except.ok ⟨oi, mapKeys requireMap, hp⟩) := by
  constructor
  · intro f lfHooks requireMap hview
    rw [_createLink]
    split
    · exact ⟨_, rfl⟩
    · cases hh : _processHost (Metadata.directive f).fields.host with
      | error e => exact ⟨e, rfl⟩
      | ok hp =>
        refine ⟨"You cannot implement AfterViewInit/AfterViewChecked for @Directive, because directive does not have View so you probably doing something wrong. @Directive support only AfterContentInit/AfterContentChecked hook which is triggered from postLink", ?_⟩
        simp [hview]
  · intro f tpl tplUrl oi od requireMap hp hquery hhost
    rw [_createLink, if_neg (by simp)]
    simp only [Metadata.fields]
    rw [hhost]
    simp

/-- Witness for C5: a concrete directive with after-view-init fails; a
concrete component with after-view-init compiles. -/
theorem view_hooks_directive_vs_component_witness :
    (∃ e, _createLink (Metadata.directive plainFields)
      ⟨false, false, false, false, true, false⟩ [] = Except.error e) ∧
    _createLink (Metadata.component plainFields (some "<b></b>") none)
        ⟨false, false, false, false, true, false⟩ [] =
      Except.ok ⟨false, [], none⟩ := by
  constructor
  · exact view_hooks_directive_vs_component.1 plainFields
      ⟨false, false, false, false, true, false⟩ [] rfl
  · exact view_hooks_directive_vs_component.2 plainFields (some "<b></b>") none
      false false [] none rfl rfl

/-! ## Claim C6 -/

/-- Counterexample to C6 as stated: the descriptor whose host declares
`"(click)": "onClick(foo)"` — an argument that is neither `$event` nor a
`$event` path — compiles successfully: `createFromType` produces a
`(name, ddo)` pair instead of throwing. -/
theorem listener_param_compile_counterexample :
    ∃ r, createFromType badListenerDescriptor = Except.ok r :=
  ⟨_, rfl⟩

/-- Claim C6 (amended): the validation of host-listener arguments happens at
event-dispatch time, not at compilation: whenever the argument list contains
a token that does not start with `$event`, `_getHostListenerCbParams` —
invoked inside the `element.on` handler when the event fires — throws. -/
theorem listener_param_error_at_dispatch (ev : EventObj) (args : List String)
    (arg : String) (hmem : arg ∈ args)
    (hbad : strStartsWith arg "$event" = false) :
    ∃ e, _getHostListenerCbParams ev args = Except.error e := by
  induction args with
  | nil => exact absurd hmem (List.not_mem_nil arg)
  | cons a rest ih =>
    by_cases ha : strStartsWith a "$event" = true
    · have harest : arg ∈ rest := by
        rcases List.mem_cons.mp hmem with h | h
        · rw [h] at hbad
          rw [hbad] at ha
          exact absurd ha Bool.false_ne_true
        · exact h
      rcases ih harest with ⟨e, he⟩
      simp only [_getHostListenerCbParams]
      rw [if_neg (by simp [ha]), he]
      exact ⟨e, rfl⟩
    · have ha2 : strStartsWith a "$event" = false := by
        revert ha
        cases strStartsWith a "$event" <;> simp
      simp only [_getHostListenerCbParams]
      rw [if_pos (by simp [ha2])]
      exact ⟨_, rfl⟩

/-- Witness for the amended C6: dispatching with the argument list
`["foo"]` throws. -/
theorem listener_param_error_at_dispatch_witness :
    ∃ e, _getHostListenerCbParams ⟨[]⟩ ["foo"] = Except.error e :=
  listener_param_error_at_dispatch ⟨[]⟩ ["foo"] "foo"
    (List.mem_singleton.mpr rfl) (by decide)

/-! ## Claim C7 -/

/-- Counterexample to C7 as stated: the bracketed key `"[classx]"` is not of
the form `[class.NAME]`, so by the claim it should yield a properties entry
keyed `classx`; the code instead matches it against the unescaped-dot regex
`/^class./` and yields the classes entry `"" -> "expr"`. -/
theorem host_class_regex_counterexample :
    _processHost (some [("[classx]", "expr")]) =
      Except.ok (some
        { hostStatic := []
          hostBindings := { classes := [("", "expr")], attributes := [], properties := [] }
          hostListeners := [] }) := by
  rfl

/-- Claim C7 (amended): host-entry classification of a host entry `(k, v)`:
a bare (non-bracketed, non-parenthesized) key becomes a static attribute
under its bracket-stripped name; a bracketed key whose stripped text matches
`/^class./` — `class` followed by ANY single character, not only a dot —
yields a classes entry keyed by the stripped text minus its first six
characters (for keys of the documented `class.NAME` form this is `NAME`);
otherwise a match of `/^attr./` yields an attributes entry (stripped text
minus five characters); any other bracketed key yields a properties entry
keyed by the raw property name; a parenthesized key whose value parses as
`method(args)` yields the listener entry `[methodName, ...argument tokens]`. -/
theorem host_entry_classification (k v : String) :
    (isStaticHostKey k = true →
      _processHost (some [(k, v)]) = Except.ok (some
        { hostStatic := [(stripBindingOrListenerBrackets k, v)]
          hostBindings := ⟨[], [], []⟩
          hostListeners := [] })) ∧
    (isHostBindingKey k = true →
      hasClassRegexTest (stripBindingOrListenerBrackets k) = true →
      _processHost (some [(k, v)]) = Except.ok (some
        { hostStatic := []
          hostBindings := ⟨[(hasClassRegexStrip (stripBindingOrListenerBrackets k), v)], [], []⟩
          hostListeners := [] })) ∧
    (isHostBindingKey k = true →
      hasClassRegexTest (stripBindingOrListenerBrackets k) = false →
      hasAttrRegexTest (stripBindingOrListenerBrackets k) = true →
      _processHost (some [(k, v)]) = Except.ok (some
        { hostStatic := []
          hostBindings := ⟨[], [(hasAttrRegexStrip (stripBindingOrListenerBrackets k), v)], []⟩
          hostListeners := [] })) ∧
    (isHostBindingKey k = true →
      hasClassRegexTest (stripBindingOrListenerBrackets k) = false →
      hasAttrRegexTest (stripBindingOrListenerBrackets k) = false →
      _processHost (some [(k, v)]) = Except.ok (some
        { hostStatic := []
          hostBindings := ⟨[], [], [(stripBindingOrListenerBrackets k, v)]⟩
          hostListeners := [] })) ∧
    (∀ (name args : String),
      isHostBindingKey k = false →
      isHostListenerKey k = true →
      execHostListenerRegex v = some (name, args) →
      _processHost (some [(k, v)]) = Except.ok (some
        { hostStatic := []
          hostBindings := ⟨[], [], []⟩
          hostListeners := [(stripBindingOrListenerBrackets k,
            name :: splitListenerArgs args)] })) := by
  refine ⟨?_, ?_, ?_, ?_, ?_⟩
  · intro hstat
    simp only [_processHost, processHostEntries]
    rw [if_pos (by simp [hstat])]
    simp [processHostEntries, classifyHostBindings, mapSet]
  · intro hbind hclass
    have hstat : isStaticHostKey k = false := by simp [isStaticHostKey, hbind]
    simp only [_processHost, processHostEntries]
    rw [if_neg (by simp [hstat]), if_pos (by simp [hbind])]
    simp [processHostEntries, classifyHostBindings, hclass, mapSet]
  · intro hbind hclass hattr
    have hstat : isStaticHostKey k = false := by simp [isStaticHostKey, hbind]
    simp only [_processHost, processHostEntries]
    rw [if_neg (by simp [hstat]), if_pos (by simp [hbind])]
    simp [processHostEntries, classifyHostBindings, hclass, hattr, mapSet]
  · intro hbind hclass hattr
    have hstat : isStaticHostKey k = false := by simp [isStaticHostKey, hbind]
    simp only [_processHost, processHostEntries]
    rw [if_neg (by simp [hstat]), if_pos (by simp [hbind])]
    simp [processHostEntries, classifyHostBindings, hclass, hattr, mapSet]
  · intro name args hbindF hlist hexec
    have hstat : isStaticHostKey k = false := by simp [isStaticHostKey, hlist]
    simp only [_processHost, processHostEntries]
    rw [if_neg (by simp [hstat]), if_neg (by simp [hbindF]), if_pos (by simp [hlist])]
    simp [processHostListenerCallback, hexec, processHostEntries,
      classifyHostBindings, mapSet]

/-- Witness for the amended C7, exercising the spec's round-trip examples and
the static, class, attribute, property and listener shapes. -/
theorem host_entry_classification_witness :
    _processHost (some [("[class.active]", "isActive")]) = Except.ok (some
      { hostStatic := []
        hostBindings := ⟨[("active", "isActive")], [], []⟩
        hostListeners := [] }) ∧
    _processHost (some [("(click)", "onClick($event,$event.target)")]) = Except.ok (some
      { hostStatic := []
        hostBindings := ⟨[], [], []⟩
        hostListeners := [("click", ["onClick", "$event", "$event.target"])] }) := by
  constructor
  · exact (host_entry_classification "[class.active]" "isActive").2.1 (by decide) (by decide)
  · exact (host_entry_classification "(click)" "onClick($event,$event.target)").2.2.2.2
      "onClick" "$event,$event.target" (by decide) (by decide) (by decide)

/-! ## Claim C8 -/

/-- Claim C8: on node detachment, a controller whose hook flags declare a
destroy hook has the hook invoked exactly once, before any disposal; then
each of the registered watcher and observer disposal functions is invoked
exactly once, for any number of them; without a destroy hook, disposal still
runs and no hook is invoked. -/
theorem destroy_hook_then_dispose (impl : Bool) (ws os : List Nat)
    (hw : ws.Nodup) (ho : os.Nodup) :
    (destroyHandlerTrace impl ws os).count DestroyEvent.hook =
        (if impl then 1 else 0) ∧
    (impl = true →
      (destroyHandlerTrace impl ws os).head? = some DestroyEvent.hook) ∧
    (∀ w ∈ ws,
      (destroyHandlerTrace impl ws os).count (DestroyEvent.disposeWatcher w) = 1) ∧
    (∀ ob ∈ os,
      (destroyHandlerTrace impl ws os).count (DestroyEvent.disposeObserver ob) = 1) := by
  have hwinj : Function.Injective DestroyEvent.disposeWatcher :=
    fun a b h => by injection h
  have hoinj : Function.Injective DestroyEvent.disposeObserver :=
    fun a b h => by injection h
  refine ⟨?_, ?_, ?_, ?_⟩
  · have h1 : (ws.map DestroyEvent.disposeWatcher).count DestroyEvent.hook = 0 :=
      List.count_eq_zero.mpr (by simp)
    have h2 : (os.map DestroyEvent.disposeObserver).count DestroyEvent.hook = 0 :=
      List.count_eq_zero.mpr (by simp)
    cases impl <;>
      simp [destroyHandlerTrace, List.count_append, h1, h2, List.count_cons,
        List.count_nil]
  · intro h
    subst h
    simp [destroyHandlerTrace]
  · intro w hwmem
    have h1 : (if impl then [DestroyEvent.hook] else []).count
        (DestroyEvent.disposeWatcher w) = 0 := by
      cases impl <;> simp
    have h2 : (ws.map DestroyEvent.disposeWatcher).count
        (DestroyEvent.disposeWatcher w) = ws.count w :=
      List.count_map_of_injective ws _ hwinj w
    have h3 : (os.map DestroyEvent.disposeObserver).count
        (DestroyEvent.disposeWatcher w) = 0 :=
      List.count_eq_zero.mpr (by simp)
    rw [destroyHandlerTrace, List.count_append, List.count_append,
      List.count_append, h1, h2, h3, List.count_eq_one_of_mem hw hwmem]
    rfl
  · intro ob hobmem
    have h1 : (if impl then [DestroyEvent.hook] else []).count
        (DestroyEvent.disposeObserver ob) = 0 := by
      cases impl <;> simp
    have h2 : (os.map DestroyEvent.disposeObserver).count
        (DestroyEvent.disposeObserver ob) = os.count ob :=
      List.count_map_of_injective os _ hoinj ob
    have h3 : (ws.map DestroyEvent.disposeWatcher).count
        (DestroyEvent.disposeObserver ob) = 0 :=
      List.count_eq_zero.mpr (by simp)
    rw [destroyHandlerTrace, List.count_append, List.count_append,
      List.count_append, h1, h2, h3, List.count_eq_one_of_mem ho hobmem]
    rfl

/-- Witness for C8 with a destroy hook and two watcher subscriptions. -/
theorem destroy_hook_then_dispose_witness :
    (destroyHandlerTrace true [0, 1] []).count DestroyEvent.hook = 1 :=
  (destroy_hook_then_dispose true [0, 1] [] (by decide) (by decide)).1

/-! ## Claim C9 -/

/-- Claim C9: the binding synthesizer merges the three declaration sequences
into one mapping: a declaration `name:alias` (or bare `name`, alias
defaulting to empty) whose name occurs once in its own sequence and in no
other sequence is mapped to `=alias` when declared under inputs, `@alias`
under attrs, and `&alias` under outputs. (Being a plain function of the
three sequences, it is pure by construction.) -/
theorem component_bindings_tagged (inputs attrs outputs : List String)
    (d propName alias2 : String) :
    (d ∈ inputs → parseBinding ':' d = (propName, alias2) →
      (inputs.map bindingName).count propName = 1 →
      propName ∉ attrs.map bindingName → propName ∉ outputs.map bindingName →
      mapGet (_createComponentBindings inputs attrs outputs) propName =
        some ("=" ++ alias2)) ∧
    (d ∈ attrs → parseBinding ':' d = (propName, alias2) →
      (attrs.map bindingName).count propName = 1 →
      propName ∉ inputs.map bindingName → propName ∉ outputs.map bindingName →
      mapGet (_createComponentBindings inputs attrs outputs) propName =
        some ("@" ++ alias2)) ∧
    (d ∈ outputs → parseBinding ':' d = (propName, alias2) →
      (outputs.map bindingName).count propName = 1 →
      propName ∉ inputs.map bindingName → propName ∉ attrs.map bindingName →
      mapGet (_createComponentBindings inputs attrs outputs) propName =
        some ("&" ++ alias2)) := by
  refine ⟨?_, ?_, ?_⟩
  · intro hmem hparse hcount hnota hnoto
    rw [_createComponentBindings,
      assignMap_get_of_none _ _ _ (extractBindings_get_of_not_mem _ _ _ hnoto),
      assignMap_get_of_none _ _ _ (extractBindings_get_of_not_mem _ _ _ hnota),
      _extractBindings]
    exact extractBindingsAux_get_unique "=" inputs [] d propName alias2 hmem hparse hcount
  · intro hmem hparse hcount hnoti hnoto
    rw [_createComponentBindings,
      assignMap_get_of_none _ _ _ (extractBindings_get_of_not_mem _ _ _ hnoto)]
    refine assignMap_get_of_some _ _ _ _ (nodupKeys_extractBindings attrs "@") ?_
    rw [_extractBindings]
    exact extractBindingsAux_get_unique "@" attrs [] d propName alias2 hmem hparse hcount
  · intro hmem hparse hcount hnoti hnota
    rw [_createComponentBindings]
    refine assignMap_get_of_some _ _ _ _ (nodupKeys_extractBindings outputs "&") ?_
    rw [_extractBindings]
    exact extractBindingsAux_get_unique "&" outputs [] d propName alias2 hmem hparse hcount

/-- Witness for C9 on concrete declaration sequences. -/
theorem component_bindings_tagged_witness :
    mapGet (_createComponentBindings ["foo:bar"] ["baz"] ["evt:out"]) "foo" =
      some "=bar" :=
  (component_bindings_tagged ["foo:bar"] ["baz"] ["evt:out"] "foo:bar" "foo" "bar").1
    (by decide) (by decide) (by decide) (by decide) (by decide)

end NgMetadata
